import Mathlib

set_option linter.unusedVariables false

/-!
Shallow embedding of the SGX driver headers `src/driver/linux/encls.h` and
`src/driver/linux/driver.h`.

C `int` values are modelled as `Int` together with their 32-bit
two's-complement bit pattern (`toBits` / `ofBits`); bitwise operations of the
source are performed on the pattern.  The hardware behaviour of one ENCLS
instruction (normal retirement with an EAX status, or a fault routed through
the exception-fixup table) is an explicit parameter of each dispatch macro's
embedding, so the wrappers are pure functions of that outcome.
-/

/-- Two's-complement 32-bit pattern of a C int value. -/
def toBits (r : Int) : Nat := (r % (4294967296 : Int)).toNat

/-- C int value denoted by a 32-bit pattern. -/
def ofBits (n : Nat) : Int :=
  if n < 2147483648 then (n : Int) else (n : Int) - 4294967296

/-! Leaf numbers of `enum sgx_encls_leaf` (the EDGBRD/EDGBWR spellings are the
source's). -/

def ECREATE : Nat := 0x00
def EADD : Nat := 0x01
def EINIT : Nat := 0x02
def EREMOVE : Nat := 0x03
def EDGBRD : Nat := 0x04
def EDGBWR : Nat := 0x05
def EEXTEND : Nat := 0x06
def ELDU : Nat := 0x08
def EBLOCK : Nat := 0x09
def EPA : Nat := 0x0A
def EWB : Nat := 0x0B
def ETRACK : Nat := 0x0C

/-- ENCLS_FAULT_FLAG - flag signifying an ENCLS return code is a trapnr
(bit 30 of the raw value). -/
def ENCLS_FAULT_FLAG : Nat := 0x40000000

/-- ENCLS_TRAPNR(r) = `(r) & ~ENCLS_FAULT_FLAG` on the 32-bit int `r`:
the complement of the flag within 32 bits is `0xFFFFFFFF ^^^ 0x40000000`. -/
def ENCLS_TRAPNR (r : Int) : Int :=
  ofBits (toBits r &&& (0xFFFFFFFF ^^^ ENCLS_FAULT_FLAG))

/-! Trap numbers from `asm/traps.h` (x86 architectural constants). -/

def X86_TRAP_GP : Nat := 13
def X86_TRAP_PF : Nat := 14

/-- `encls_failed(ret)`: the classifier of `encls.h`.  The hardware
generation probe `boot_cpu_has(X86_FEATURE_SGX2)` is the boolean
parameter `sgx2`. -/
def encls_failed (sgx2 : Bool) (ret : Int) : Bool :=
  let epcm_trapnr : Int := if sgx2 then (X86_TRAP_PF : Int) else (X86_TRAP_GP : Int)
  let fault : Bool := decide (toBits ret &&& ENCLS_FAULT_FLAG ≠ 0)
  (fault && decide (ENCLS_TRAPNR ret ≠ epcm_trapnr)) || (!fault && decide (ret ≠ 0))

/-- Hardware behaviour of one invocation of a status-returning ENCLS leaf:
either the instruction retires normally leaving an SGX status code in EAX
(0 meaning success), or it faults and the fixup handler delivers a trap
number in EAX. -/
inductive RetOutcome where
  | retire (code : Nat)
  | fault (trapnr : Nat)
deriving DecidableEq

/-- Hardware behaviour of one invocation of a no-status ENCLS leaf: either
the instruction retires normally with a value left in RBX, or it faults;
RBX holds an arbitrary value on the fault path. -/
inductive NOutcome where
  | retire (rbx : Nat)
  | fault (trapnr : Nat) (rbx : Nat)
deriving DecidableEq

/-- `__encls_ret_N`: on retirement the raw EAX value is returned unchanged;
on a fault the fixup code ORs ENCLS_FAULT_FLAG into the trap number left in
EAX.  The leaf number `rax` selects the operation and does not alter the
result encoding. -/
def __encls_ret_N (rax : Nat) (o : RetOutcome) : Int :=
  match o with
  | RetOutcome.retire code => ofBits (code % 4294967296)
  | RetOutcome.fault trapnr => ofBits ((trapnr % 4294967296) ||| ENCLS_FAULT_FLAG)

def __encls_ret_1 (rax : Nat) (rcx : Nat) (o : RetOutcome) : Int :=
  __encls_ret_N rax o

def __encls_ret_2 (rax : Nat) (rbx : Nat) (rcx : Nat) (o : RetOutcome) : Int :=
  __encls_ret_N rax o

def __encls_ret_3 (rax : Nat) (rbx : Nat) (rcx : Nat) (rdx : Nat) (o : RetOutcome) : Int :=
  __encls_ret_N rax o

/-- `__encls_N`: the `xor %eax,%eax` that follows the instruction zeroes EAX
on normal retirement, so the result is exactly 0 unless the fault fixup ran;
the second component is the RBX output. -/
def __encls_N (rax : Nat) (o : NOutcome) : Int × Nat :=
  match o with
  | NOutcome.retire rbx => (0, rbx)
  | NOutcome.fault trapnr rbx =>
      (ofBits ((trapnr % 4294967296) ||| ENCLS_FAULT_FLAG), rbx)

/-- `__encls_2`: RBX output ignored. -/
def __encls_2 (rax : Nat) (rbx : Nat) (rcx : Nat) (o : NOutcome) : Int :=
  (__encls_N rax o).1

/-- `__encls_1_1`: `data` is overwritten with the RBX output only when the
raw result is 0. -/
def __encls_1_1 (rax : Nat) (data : Nat) (rcx : Nat) (o : NOutcome) : Int × Nat :=
  let ret := (__encls_N rax o).1
  (ret, if ret = 0 then (__encls_N rax o).2 else data)

/-- Modelled from the spec: `SGX_PAGE_TYPE_VA`, a page-type constant from the
missing `sgx.h` header; it only feeds the RBX input of `__epa` and its value
does not affect any result below. -/
def SGX_PAGE_TYPE_VA : Nat := 3

/-! The leaf wrappers of `encls.h`.  Pointer arguments are modelled as plain
addresses (`Nat`); they select hardware inputs and do not alter the result
encoding, which is a function of the hardware outcome `o`. -/

def __ecreate (pginfo : Nat) (secs : Nat) (o : NOutcome) : Int :=
  __encls_2 ECREATE pginfo secs o

def __eextend (secs : Nat) (addr : Nat) (o : NOutcome) : Int :=
  __encls_2 EEXTEND secs addr o

def __eadd (pginfo : Nat) (addr : Nat) (o : NOutcome) : Int :=
  __encls_2 EADD pginfo addr o

def __einit (sigstruct : Nat) (einittoken : Nat) (secs : Nat) (o : RetOutcome) : Int :=
  __encls_ret_3 EINIT sigstruct secs einittoken o

def __eremove (addr : Nat) (o : RetOutcome) : Int :=
  __encls_ret_1 EREMOVE addr o

def __edbgwr (addr : Nat) (data : Nat) (o : NOutcome) : Int :=
  __encls_2 EDGBWR data addr o

def __edbgrd (addr : Nat) (data : Nat) (o : NOutcome) : Int × Nat :=
  __encls_1_1 EDGBRD data addr o

def __etrack (addr : Nat) (o : RetOutcome) : Int :=
  __encls_ret_1 ETRACK addr o

def __eldu (pginfo : Nat) (addr : Nat) (va : Nat) (o : RetOutcome) : Int :=
  __encls_ret_3 ELDU pginfo addr va o

def __eblock (addr : Nat) (o : RetOutcome) : Int :=
  __encls_ret_1 EBLOCK addr o

def __epa (addr : Nat) (o : NOutcome) : Int :=
  __encls_2 EPA SGX_PAGE_TYPE_VA addr o

def __ewb (pginfo : Nat) (addr : Nat) (va : Nat) (o : RetOutcome) : Int :=
  __encls_ret_3 EWB pginfo addr va o

/-! Constants of `driver.h`. -/

def SGX_DRV_NR_DEVICES : Nat := 2
def SGX_EINIT_SPIN_COUNT : Nat := 20
def SGX_EINIT_SLEEP_COUNT : Nat := 50
def SGX_EINIT_SLEEP_TIME : Nat := 20

/-- Modelled from the spec: the page lifecycle states of the controller
(spec section 4.2); the controller implementation is not among the provided
sources, only the leaf wrappers it calls are. -/
inductive PageState where
  | Free
  | Added
  | Initialized
  | Blocked
  | Tracked
  | Evicted
deriving DecidableEq

/-- Modelled from the spec: the per-page view the eviction sequence needs.
`shootdownAcked` records whether every processor that might hold a stale
translation has acknowledged the tracking epoch advanced by the most recent
track operation on this page (the cross-processor shootdown completed). -/
structure EpcPage where
  state : PageState
  shootdownAcked : Bool
deriving DecidableEq

inductive EvictOutcome where
  | evicted
  | rejected
deriving DecidableEq

/-- Modelled from the spec: the track transition of the controller.  Track
advances the tracking epoch on a blocked page; the new epoch starts
unacknowledged, so a fresh shootdown pass is required before eviction. -/
def trackPage (p : EpcPage) : EpcPage :=
  if p.state = PageState.Blocked then
    { state := PageState.Tracked, shootdownAcked := false }
  else p

/-- Modelled from the spec: completion of the cross-processor shootdown pass:
every processor acknowledges the current tracking epoch. -/
def ackShootdown (p : EpcPage) : EpcPage :=
  { p with shootdownAcked := true }

/-- Modelled from the spec: the evict (write-back) transition.  Evict is
permitted only on a Tracked page whose tracking epoch has been acknowledged
by all processors; otherwise it is rejected and the page is unchanged. -/
def evictPage (p : EpcPage) : EvictOutcome × EpcPage :=
  if p.state = PageState.Tracked ∧ p.shootdownAcked = true then
    (EvictOutcome.evicted, { state := PageState.Evicted, shootdownAcked := false })
  else
    (EvictOutcome.rejected, p)

/-- Modelled from the spec: result of the EINIT retry controller `sgx_einit`,
whose body is not among the provided sources (only its declaration in
`encls.h` and the retry constants in `driver.h` are).  `attempts` counts the
EINIT attempts that were issued. -/
inductive EinitResult where
  | success (attempts : Nat)
  | retriesExhausted (attempts : Nat)
deriving DecidableEq

/-- Modelled from the spec: the transient-contention environment, given by
the number of leading consecutive contention failures; the 1-based attempt
number `attempt` succeeds exactly when the failures are exhausted. -/
def einitAttemptSucceeds (failures : Nat) (attempt : Nat) : Bool :=
  decide (failures < attempt)

/-- Modelled from the spec: one bounded retry phase of `sgx_einit`: issue up
to `remaining` further attempts after `done` already-failed ones, returning
the total attempt count on success. -/
def einitLoop (failures : Nat) (done : Nat) (remaining : Nat) : Option Nat :=
  match remaining with
  | 0 => none
  | Nat.succ rem =>
      if einitAttemptSucceeds failures (done + 1) then some (done + 1)
      else einitLoop failures (done + 1) rem

/-- Modelled from the spec: `sgx_einit` retries EINIT up to
SGX_EINIT_SPIN_COUNT times busy-spinning, then falls back to up to
SGX_EINIT_SLEEP_COUNT further attempts with sleeps of SGX_EINIT_SLEEP_TIME
between them, before surfacing a final failure with no further attempts. -/
def sgx_einit (failures : Nat) : EinitResult :=
  match einitLoop failures 0 SGX_EINIT_SPIN_COUNT with
  | some a => EinitResult.success a
  | none =>
      match einitLoop failures SGX_EINIT_SPIN_COUNT SGX_EINIT_SLEEP_COUNT with
      | some a => EinitResult.success a
      | none =>
          EinitResult.retriesExhausted (SGX_EINIT_SPIN_COUNT + SGX_EINIT_SLEEP_COUNT)

/-! Helper lemmas on the 32-bit encoding. -/

lemma ENCLS_FAULT_FLAG_eq : ENCLS_FAULT_FLAG = 2 ^ 30 := by
  norm_num [ENCLS_FAULT_FLAG]

lemma decide_and_flag (n : Nat) :
    decide (n &&& ENCLS_FAULT_FLAG ≠ 0) = n.testBit 30 := by
  rw [ENCLS_FAULT_FLAG_eq, Nat.and_two_pow]
  cases htb : n.testBit 30 <;> simp

lemma ge_of_testBit (x i : Nat) (h : x.testBit i = true) : 2 ^ i ≤ x := by
  rw [Nat.testBit_to_div_mod] at h
  simp only [decide_eq_true_eq] at h
  rcases Nat.lt_or_ge x (2 ^ i) with hlt | hge
  · rw [Nat.div_eq_of_lt hlt] at h
    simp at h
  · exact hge

lemma toBits_coe (x : Nat) (h : x < 4294967296) : toBits (x : Int) = x := by
  unfold toBits
  rw [Int.emod_eq_of_lt (by exact_mod_cast Nat.zero_le x) (by exact_mod_cast h)]
  exact Int.toNat_natCast x

lemma ofBits_small (x : Nat) (h : x < 2147483648) : ofBits x = (x : Int) := by
  unfold ofBits
  rw [if_pos h]

lemma or_flag_testBit30 (t : Nat) : (t ||| ENCLS_FAULT_FLAG).testBit 30 = true := by
  rw [Nat.testBit_or, ENCLS_FAULT_FLAG_eq, Nat.testBit_two_pow_self, Bool.or_true]

/-- C1: the failure classifier encls_failed returns true exactly when either
the fault flag (bit 30 of the raw value) is set and the encoded trap number
differs from the benign trap number — the page-fault trap on SGX2-capable
hardware, the general-protection trap otherwise — or the fault flag is clear
and the raw value is non-zero; in particular a raw result of 0 is never a
failure. -/
theorem encls_failed_iff_C1 (sgx2 : Bool) (ret : Int) :
    (encls_failed sgx2 ret = true ↔
      ((toBits ret).testBit 30 = true ∧
        ENCLS_TRAPNR ret ≠ (if sgx2 then (X86_TRAP_PF : Int) else (X86_TRAP_GP : Int))) ∨
      ((toBits ret).testBit 30 = false ∧ ret ≠ 0)) ∧
    encls_failed sgx2 0 = false := by
  constructor
  · simp only [encls_failed, decide_and_flag]
    cases htb : (toBits ret).testBit 30 <;> simp [htb]
  · cases sgx2 <;> decide

/-- C3: the tri-state result encoding never collides: for any trap number t
with bit 30 clear and any positive status code s below 2^30, the fault
encoding t ||| ENCLS_FAULT_FLAG differs from s and from 0, and bit 30
separates the two classes of non-negative raw results. -/
theorem fault_status_no_collision_C3 (t s : Nat)
    (ht : t.testBit 30 = false) (hs0 : 0 < s) (hs : s < 2 ^ 30) :
    t ||| ENCLS_FAULT_FLAG ≠ s ∧ t ||| ENCLS_FAULT_FLAG ≠ 0 ∧
    (t ||| ENCLS_FAULT_FLAG).testBit 30 = true ∧ s.testBit 30 = false := by
  have hbit : (t ||| ENCLS_FAULT_FLAG).testBit 30 = true := or_flag_testBit30 t
  have hsbit : s.testBit 30 = false := Nat.testBit_lt_two_pow hs
  refine ⟨?_, ?_, hbit, hsbit⟩
  · intro h
    rw [h, hsbit] at hbit
    exact Bool.noConfusion hbit
  · intro h
    rw [h, Nat.zero_testBit] at hbit
    exact Bool.noConfusion hbit

theorem fault_status_no_collision_C3_witness :
    (5 : Nat) ||| ENCLS_FAULT_FLAG ≠ 3 ∧ (5 : Nat) ||| ENCLS_FAULT_FLAG ≠ 0 ∧
    ((5 : Nat) ||| ENCLS_FAULT_FLAG).testBit 30 = true ∧ (3 : Nat).testBit 30 = false :=
  fault_status_no_collision_C3 5 3 (by decide) (by decide) (by norm_num)

lemma and_mask_or_flag (t : Nat) (h31 : t < 2 ^ 31) (h30 : t.testBit 30 = false) :
    (t ||| ENCLS_FAULT_FLAG) &&& (0xFFFFFFFF ^^^ ENCLS_FAULT_FLAG) = t := by
  have hf32 : (0xFFFFFFFF : Nat) = 2 ^ 32 - 1 := by norm_num
  apply Nat.eq_of_testBit_eq
  intro i
  rw [Nat.testBit_and, Nat.testBit_or, Nat.testBit_xor, hf32,
    Nat.testBit_two_pow_sub_one, ENCLS_FAULT_FLAG_eq, Nat.testBit_two_pow]
  by_cases hi30 : i = 30
  · subst hi30
    simp [h30]
  · by_cases hi32 : i < 32
    · simp [hi30, Ne.symm hi30, hi32]
    · have hti : t.testBit i = false := by
        apply Nat.testBit_lt_two_pow
        calc t < 2 ^ 31 := h31
        _ ≤ 2 ^ i := Nat.pow_le_pow_right (by norm_num) (by omega)
      simp [hti, Ne.symm hi30, hi32]

/-- C10: the fault encoding round-trips: for any trap number t with bit 30
clear, applying ENCLS_TRAPNR to the int whose pattern is
t ||| ENCLS_FAULT_FLAG — the value produced by the fixup path — recovers
exactly t. -/
theorem trapnr_roundtrip_C10 (t : Nat) (h31 : t < 2 ^ 31) (h30 : t.testBit 30 = false) :
    ENCLS_TRAPNR (((t ||| ENCLS_FAULT_FLAG : Nat) : Int)) = (t : Int) := by
  have hx31 : t ||| ENCLS_FAULT_FLAG < 2 ^ 31 := by
    apply Nat.or_lt_two_pow h31
    rw [ENCLS_FAULT_FLAG_eq]
    norm_num
  unfold ENCLS_TRAPNR
  rw [toBits_coe _ (by calc t ||| ENCLS_FAULT_FLAG < 2 ^ 31 := hx31
        _ < 4294967296 := by norm_num),
    and_mask_or_flag t h31 h30,
    ofBits_small t (by calc t < 2 ^ 31 := h31
        _ = 2147483648 := by norm_num)]

theorem trapnr_roundtrip_C10_witness :
    ENCLS_TRAPNR (((13 ||| ENCLS_FAULT_FLAG : Nat) : Int)) = (13 : Int) :=
  trapnr_roundtrip_C10 13 (by norm_num) (by decide)

lemma fault_ret_val (t : Nat) (h : t < 2 ^ 30) :
    ofBits ((t % 4294967296) ||| ENCLS_FAULT_FLAG) =
      ((t ||| ENCLS_FAULT_FLAG : Nat) : Int) ∧
    toBits (((t ||| ENCLS_FAULT_FLAG : Nat) : Int)) = t ||| ENCLS_FAULT_FLAG := by
  have ht32 : t % 4294967296 = t := Nat.mod_eq_of_lt (by omega)
  have hx31 : t ||| ENCLS_FAULT_FLAG < 2 ^ 31 := by
    apply Nat.or_lt_two_pow (by omega)
    rw [ENCLS_FAULT_FLAG_eq]
    norm_num
  constructor
  · rw [ht32, ofBits_small _ (by calc t ||| ENCLS_FAULT_FLAG < 2 ^ 31 := hx31
        _ = 2147483648 := by norm_num)]
  · exact toBits_coe _ (by calc t ||| ENCLS_FAULT_FLAG < 2 ^ 31 := hx31
        _ < 4294967296 := by norm_num)

lemma retN_classified (rax : Nat) (o : RetOutcome)
    (hwf : ∀ c, o = RetOutcome.retire c → c < 2 ^ 30)
    (htrap : ∀ t, o = RetOutcome.fault t → t < 2 ^ 30) :
    (o = RetOutcome.retire 0 → __encls_ret_N rax o = 0) ∧
    (∀ s, o = RetOutcome.retire s → 0 < s →
      __encls_ret_N rax o = (s : Int) ∧ 0 < __encls_ret_N rax o ∧
      (toBits (__encls_ret_N rax o)).testBit 30 = false) ∧
    (∀ t, o = RetOutcome.fault t →
      __encls_ret_N rax o = ((t ||| ENCLS_FAULT_FLAG : Nat) : Int) ∧
      (toBits (__encls_ret_N rax o)).testBit 30 = true) ∧
    ((toBits (__encls_ret_N rax o)).testBit 30 = true ↔
      ∃ t, o = RetOutcome.fault t) := by
  cases o with
  | retire c =>
      have hc : c < 2 ^ 30 := hwf c rfl
      have hc32 : c % 4294967296 = c := Nat.mod_eq_of_lt (by omega)
      have hval : __encls_ret_N rax (RetOutcome.retire c) = (c : Int) := by
        simp only [__encls_ret_N, hc32]
        exact ofBits_small c (by omega)
      have hbits : toBits (__encls_ret_N rax (RetOutcome.retire c)) = c := by
        rw [hval]
        exact toBits_coe c (by omega)
      have hbit30 : (toBits (__encls_ret_N rax (RetOutcome.retire c))).testBit 30 = false := by
        rw [hbits]
        exact Nat.testBit_lt_two_pow hc
      refine ⟨?_, ?_, ?_, ?_⟩
      · intro h
        cases h
        exact hval
      · intro s hs hpos
        cases hs
        exact ⟨hval, by rw [hval]; exact_mod_cast hpos, hbit30⟩
      · intro t ht
        exact absurd ht (by simp)
      · rw [hbit30]
        simp
  | fault t =>
      have ht : t < 2 ^ 30 := htrap t rfl
      obtain ⟨hval, hback⟩ := fault_ret_val t ht
      have hv : __encls_ret_N rax (RetOutcome.fault t) =
          ((t ||| ENCLS_FAULT_FLAG : Nat) : Int) := by
        simp only [__encls_ret_N]
        exact hval
      have hbit30 : (toBits (__encls_ret_N rax (RetOutcome.fault t))).testBit 30 = true := by
        rw [hv, hback]
        exact or_flag_testBit30 t
      refine ⟨?_, ?_, ?_, ?_⟩
      · intro h
        exact absurd h (by simp)
      · intro s hs
        exact absurd hs (by simp)
      · intro u hu
        cases hu
        exact ⟨hv, hbit30⟩
      · rw [hbit30]
        simp

/-- C4: every status-returning leaf wrapper (__einit, __eremove, __etrack,
__eldu, __eblock, __ewb) returns 0 on success, the positive operation status
code itself on a controlled hardware failure, and trap-number ORed with
ENCLS_FAULT_FLAG on a fault; the fault flag is set in the result exactly
when a fault occurred. -/
theorem status_leaf_classification_C4
    (sigstruct einittoken secs pginfo addr va : Nat) (o : RetOutcome)
    (hwf : ∀ c, o = RetOutcome.retire c → c < 2 ^ 30)
    (htrap : ∀ t, o = RetOutcome.fault t → t < 2 ^ 30) :
    ∀ r ∈ [__einit sigstruct einittoken secs o, __eremove addr o, __etrack addr o,
           __eldu pginfo addr va o, __eblock addr o, __ewb pginfo addr va o],
      (o = RetOutcome.retire 0 → r = 0) ∧
      (∀ s, o = RetOutcome.retire s → 0 < s →
        r = (s : Int) ∧ 0 < r ∧ (toBits r).testBit 30 = false) ∧
      (∀ t, o = RetOutcome.fault t →
        r = ((t ||| ENCLS_FAULT_FLAG : Nat) : Int) ∧ (toBits r).testBit 30 = true) ∧
      ((toBits r).testBit 30 = true ↔ ∃ t, o = RetOutcome.fault t) := by
  intro r hr
  have hsplit : ∀ rax : Nat, r = __encls_ret_N rax o →
      (o = RetOutcome.retire 0 → r = 0) ∧
      (∀ s, o = RetOutcome.retire s → 0 < s →
        r = (s : Int) ∧ 0 < r ∧ (toBits r).testBit 30 = false) ∧
      (∀ t, o = RetOutcome.fault t →
        r = ((t ||| ENCLS_FAULT_FLAG : Nat) : Int) ∧ (toBits r).testBit 30 = true) ∧
      ((toBits r).testBit 30 = true ↔ ∃ t, o = RetOutcome.fault t) := by
    intro rax h
    rw [h]
    exact retN_classified rax o hwf htrap
  simp only [List.mem_cons, List.not_mem_nil, or_false] at hr
  rcases hr with h | h | h | h | h | h
  · exact hsplit EINIT h
  · exact hsplit EREMOVE h
  · exact hsplit ETRACK h
  · exact hsplit ELDU h
  · exact hsplit EBLOCK h
  · exact hsplit EWB h

theorem status_leaf_classification_C4_witness :
    __einit 0 0 0 (RetOutcome.fault 13) = ((13 ||| ENCLS_FAULT_FLAG : Nat) : Int) ∧
    (toBits (__einit 0 0 0 (RetOutcome.fault 13))).testBit 30 = true :=
  ((status_leaf_classification_C4 0 0 0 0 0 0 (RetOutcome.fault 13)
      (by intro c h; simp at h)
      (by intro t h; cases h; norm_num))
    (__einit 0 0 0 (RetOutcome.fault 13)) (by simp)).2.2.1 13 rfl

lemma nN_classified (rax : Nat) (o : NOutcome)
    (htrap : ∀ t rbx, o = NOutcome.fault t rbx → t < 2 ^ 30) :
    (∀ rbx, o = NOutcome.retire rbx → (__encls_N rax o).1 = 0) ∧
    (∀ t rbx, o = NOutcome.fault t rbx →
      (__encls_N rax o).1 = ((t ||| ENCLS_FAULT_FLAG : Nat) : Int) ∧
      (toBits (__encls_N rax o).1).testBit 30 = true) ∧
    ((__encls_N rax o).1 ≠ 0 → (toBits (__encls_N rax o).1).testBit 30 = true) := by
  cases o with
  | retire rbx =>
      refine ⟨fun _ _ => rfl, ?_, ?_⟩
      · intro t rbx2 h
        exact absurd h (by simp)
      · intro h
        exact absurd rfl h
  | fault t rbx =>
      have ht : t < 2 ^ 30 := htrap t rbx rfl
      obtain ⟨hval, hback⟩ := fault_ret_val t ht
      have hv : (__encls_N rax (NOutcome.fault t rbx)).1 =
          ((t ||| ENCLS_FAULT_FLAG : Nat) : Int) := hval
      have hbit30 : (toBits (__encls_N rax (NOutcome.fault t rbx)).1).testBit 30 = true := by
        rw [hv, hback]
        exact or_flag_testBit30 t
      refine ⟨?_, ?_, fun _ => hbit30⟩
      · intro rbx2 h
        exact absurd h (by simp)
      · intro u rbx2 h
        cases h
        exact ⟨hv, hbit30⟩

/-- C5: every no-status leaf wrapper (__ecreate, __eadd, __eextend, __edbgwr,
__epa, __edbgrd) returns exactly 0 on success — the accumulator is zeroed
after the instruction — or trap-number ORed with ENCLS_FAULT_FLAG on a
fault; a non-zero result always carries the fault flag, so it is never a
positive status code with the flag clear. -/
theorem nostatus_leaf_classification_C5
    (pginfo secs addr data : Nat) (o : NOutcome)
    (htrap : ∀ t rbx, o = NOutcome.fault t rbx → t < 2 ^ 30) :
    ∀ r ∈ [__ecreate pginfo secs o, __eadd pginfo addr o, __eextend secs addr o,
           __edbgwr addr data o, __epa addr o, (__edbgrd addr data o).1],
      (∀ rbx, o = NOutcome.retire rbx → r = 0) ∧
      (∀ t rbx, o = NOutcome.fault t rbx →
        r = ((t ||| ENCLS_FAULT_FLAG : Nat) : Int) ∧ (toBits r).testBit 30 = true) ∧
      (r ≠ 0 → (toBits r).testBit 30 = true) := by
  intro r hr
  have hsplit : ∀ rax : Nat, r = (__encls_N rax o).1 →
      (∀ rbx, o = NOutcome.retire rbx → r = 0) ∧
      (∀ t rbx, o = NOutcome.fault t rbx →
        r = ((t ||| ENCLS_FAULT_FLAG : Nat) : Int) ∧ (toBits r).testBit 30 = true) ∧
      (r ≠ 0 → (toBits r).testBit 30 = true) := by
    intro rax h
    rw [h]
    exact nN_classified rax o htrap
  simp only [List.mem_cons, List.not_mem_nil, or_false] at hr
  rcases hr with h | h | h | h | h | h
  · exact hsplit ECREATE h
  · exact hsplit EADD h
  · exact hsplit EEXTEND h
  · exact hsplit EDGBWR h
  · exact hsplit EPA h
  · refine hsplit EDGBRD ?_
    rw [h]
    rfl

theorem nostatus_leaf_classification_C5_witness :
    __ecreate 0 0 (NOutcome.fault 14 0) = ((14 ||| ENCLS_FAULT_FLAG : Nat) : Int) ∧
    (toBits (__ecreate 0 0 (NOutcome.fault 14 0))).testBit 30 = true :=
  ((nostatus_leaf_classification_C5 0 0 0 0 (NOutcome.fault 14 0)
      (by intro t rbx h; cases h; norm_num))
    (__ecreate 0 0 (NOutcome.fault 14 0)) (by simp)).2.1 14 0 rfl

lemma fault_ret_ne_zero (t : Nat) :
    ofBits ((t % 4294967296) ||| ENCLS_FAULT_FLAG) ≠ 0 := by
  set x : Nat := (t % 4294967296) ||| ENCLS_FAULT_FLAG with hx
  have hge : 2 ^ 30 ≤ x := by
    apply ge_of_testBit
    rw [hx]
    exact or_flag_testBit30 _
  have hlt : x < 2 ^ 32 := by
    apply Nat.or_lt_two_pow
    · have := Nat.mod_lt t (y := 4294967296) (by norm_num)
      omega
    · rw [ENCLS_FAULT_FLAG_eq]
      norm_num
  unfold ofBits
  by_cases hc : x < 2147483648
  · rw [if_pos hc]
    intro h
    have hx0 : x = 0 := by exact_mod_cast h
    omega
  · rw [if_neg hc]
    intro h
    have : (x : Int) = 4294967296 := by omega
    have hx0 : x = 4294967296 := by exact_mod_cast this
    omega

/-- C7: the debug-read wrapper returns an output value by reference: whenever
__edbgrd returns 0, the hardware retired normally and the word read into RBX
is stored into the caller's data location. -/
theorem edbgrd_returns_value_C7 (addr data : Nat) (o : NOutcome)
    (h : (__edbgrd addr data o).1 = 0) :
    ∃ rbx, o = NOutcome.retire rbx ∧ (__edbgrd addr data o).2 = rbx := by
  cases o with
  | retire rbx => exact ⟨rbx, rfl, rfl⟩
  | fault t rbx =>
      exfalso
      exact fault_ret_ne_zero t h

theorem edbgrd_returns_value_C7_witness :
    ∃ rbx, NOutcome.retire 7 = NOutcome.retire rbx ∧
      (__edbgrd 0 0 (NOutcome.retire 7)).2 = rbx :=
  edbgrd_returns_value_C7 0 0 (NOutcome.retire 7) rfl

/-- C9: on failure the debug-read wrapper leaves its output untouched: for a
non-zero (fault-flagged) result the caller's data location keeps its old
value, because RBX is copied into it only when the raw result is 0. -/
theorem edbgrd_frame_C9 (addr data : Nat) (o : NOutcome)
    (h : (__edbgrd addr data o).1 ≠ 0) :
    (__edbgrd addr data o).2 = data := by
  cases o with
  | retire rbx => exact absurd rfl h
  | fault t rbx =>
      show (if (__encls_N EDGBRD (NOutcome.fault t rbx)).1 = 0 then rbx else data) = data
      have hne : (__encls_N EDGBRD (NOutcome.fault t rbx)).1 ≠ 0 := fault_ret_ne_zero t
      rw [if_neg hne]

theorem edbgrd_frame_C9_witness :
    (__edbgrd 0 5 (NOutcome.fault 13 0)).2 = 5 :=
  edbgrd_frame_C9 0 5 (NOutcome.fault 13 0) (by decide)

lemma testBit30_of_high_range (n : Nat) (h1 : 3221225472 < n) (h2 : n < 4294967296) :
    n.testBit 30 = true := by
  rw [Nat.testBit_to_div_mod]
  have hp : (2 : Nat) ^ 30 = 1073741824 := by norm_num
  have h3 : n / 2 ^ 30 = 3 := by
    rw [hp]
    omega
  rw [h3]
  decide

lemma testBit31_of_high_range (n : Nat) (h1 : 3221225472 < n) (h2 : n < 4294967296) :
    n.testBit 31 = true := by
  rw [Nat.testBit_to_div_mod]
  have hp : (2 : Nat) ^ 31 = 2147483648 := by norm_num
  have h3 : n / 2 ^ 31 = 1 := by
    rw [hp]
    omega
  rw [h3]
  decide

/-- C8 counterexample: the raw value -1073741810 is negative with magnitude
below 2^30, and under SGX2 hardware the low 30 bits of its two's-complement
pattern equal the benign trap number X86_TRAP_PF — yet encls_failed still
classifies it as a failure, contradicting the claim that such a value is
classified as not-a-failure precisely when its low 30 bits equal the benign
trap number. -/
theorem encls_failed_negative_counterexample_C8 :
    (-1073741810 : Int) < 0 ∧ (1073741810 : Int) < 2 ^ 30 ∧
    toBits (-1073741810) % 2 ^ 30 = X86_TRAP_PF ∧
    (toBits (-1073741810)).testBit 30 = true ∧
    encls_failed true (-1073741810) = true := by
  refine ⟨by norm_num, by norm_num, ?_, ?_, ?_⟩ <;> decide

/-- C8 amended: for every negative raw result r with magnitude below 2^30,
encls_failed takes the fault branch — bit 30 of the two's-complement pattern
is set — but the classifier never reports not-a-failure there: ENCLS_TRAPNR
masks only bit 30, so bit 31 of the negative value survives and the encoded
trap number never equals the benign trap number; every negative system error
code is classified as a failure on both hardware generations. -/
theorem encls_failed_negative_always_fails_C8 (sgx2 : Bool) (r : Int)
    (hneg : r < 0) (hmag : -(2 ^ 30 : Int) < r) :
    (toBits r).testBit 30 = true ∧ encls_failed sgx2 r = true := by
  have hpi : ((2 : Int) ^ 30) = 1073741824 := by norm_num
  rw [hpi] at hmag
  have hn : 3221225472 < toBits r ∧ toBits r < 4294967296 := by
    unfold toBits
    constructor <;> omega
  have hbit30 : (toBits r).testBit 30 = true :=
    testBit30_of_high_range _ hn.1 hn.2
  have hbit31 : (toBits r).testBit 31 = true :=
    testBit31_of_high_range _ hn.1 hn.2
  refine ⟨hbit30, ?_⟩
  have hmask31 : ((0xFFFFFFFF ^^^ ENCLS_FAULT_FLAG : Nat)).testBit 31 = true := by decide
  have hand31 : (toBits r &&& (0xFFFFFFFF ^^^ ENCLS_FAULT_FLAG)).testBit 31 = true := by
    rw [Nat.testBit_and, hbit31, hmask31]
    decide
  have hgeand : 2 ^ 31 ≤ toBits r &&& (0xFFFFFFFF ^^^ ENCLS_FAULT_FLAG) :=
    ge_of_testBit _ 31 hand31
  have hltand : toBits r &&& (0xFFFFFFFF ^^^ ENCLS_FAULT_FLAG) < 4294967296 := by
    have := Nat.and_le_left (n := toBits r) (m := 0xFFFFFFFF ^^^ ENCLS_FAULT_FLAG)
    omega
  have htrapneg : ENCLS_TRAPNR r < 0 := by
    unfold ENCLS_TRAPNR ofBits
    rw [if_neg (by norm_num at hgeand ⊢; omega)]
    have h31 : (2147483648 : Nat) ≤ toBits r &&& (0xFFFFFFFF ^^^ ENCLS_FAULT_FLAG) := by
      norm_num at hgeand
      exact hgeand
    omega
  have hfault : decide (toBits r &&& ENCLS_FAULT_FLAG ≠ 0) = true := by
    rw [decide_and_flag, hbit30]
  have hne : ENCLS_TRAPNR r ≠ (if sgx2 then (X86_TRAP_PF : Int) else (X86_TRAP_GP : Int)) := by
    intro h
    rw [h] at htrapneg
    cases sgx2 <;> norm_num [X86_TRAP_PF, X86_TRAP_GP] at htrapneg
  show (decide (toBits r &&& ENCLS_FAULT_FLAG ≠ 0) &&
      decide (ENCLS_TRAPNR r ≠ (if sgx2 then (X86_TRAP_PF : Int) else (X86_TRAP_GP : Int))) ||
      (!decide (toBits r &&& ENCLS_FAULT_FLAG ≠ 0) && decide (r ≠ 0))) = true
  rw [hfault, decide_eq_true hne]
  rfl

theorem encls_failed_negative_always_fails_C8_witness :
    (toBits (-14)).testBit 30 = true ∧ encls_failed true (-14) = true :=
  encls_failed_negative_always_fails_C8 true (-14) (by norm_num) (by norm_num)

/-- C2: the evict operation is never allowed to proceed before the tracking
epoch advanced by the most recent track has been acknowledged by every
processor: with the acknowledgment outstanding, evict is rejected (it does
not silently succeed), the page is unchanged so a Tracked page remains
Tracked, and a freshly tracked page — whose epoch is necessarily
unacknowledged — is likewise rejected. -/
theorem evict_requires_ack_C2 (p : EpcPage) (h : p.shootdownAcked = false) :
    (evictPage p).1 = EvictOutcome.rejected ∧ (evictPage p).2 = p ∧
    (p.state = PageState.Tracked → ((evictPage p).2).state = PageState.Tracked) ∧
    (∀ q : EpcPage, q.state = PageState.Blocked →
      (evictPage (trackPage q)).1 = EvictOutcome.rejected) := by
  have hrej : (evictPage p).1 = EvictOutcome.rejected ∧ (evictPage p).2 = p := by
    unfold evictPage
    rw [if_neg]
    · exact ⟨rfl, rfl⟩
    · rintro ⟨h1, h2⟩
      rw [h] at h2
      exact Bool.noConfusion h2
  refine ⟨hrej.1, hrej.2, ?_, ?_⟩
  · intro htr
    rw [hrej.2]
    exact htr
  · intro q hq
    unfold trackPage
    rw [if_pos hq]
    unfold evictPage
    rw [if_neg]
    rintro ⟨h1, h2⟩
    exact Bool.noConfusion h2

theorem evict_requires_ack_C2_witness :
    (evictPage ⟨PageState.Tracked, false⟩).1 = EvictOutcome.rejected ∧
    (evictPage ⟨PageState.Tracked, false⟩).2 = ⟨PageState.Tracked, false⟩ ∧
    ((⟨PageState.Tracked, false⟩ : EpcPage).state = PageState.Tracked →
      ((evictPage ⟨PageState.Tracked, false⟩).2).state = PageState.Tracked) ∧
    (∀ q : EpcPage, q.state = PageState.Blocked →
      (evictPage (trackPage q)).1 = EvictOutcome.rejected) :=
  evict_requires_ack_C2 ⟨PageState.Tracked, false⟩ rfl

lemma einitLoop_none (f : Nat) :
    ∀ rem done, done + rem ≤ f → einitLoop f done rem = none := by
  intro rem
  induction rem with
  | zero => intro done h; rfl
  | succ rem ih =>
      intro done h
      have hcond : einitAttemptSucceeds f (done + 1) = false := by
        unfold einitAttemptSucceeds
        simp only [decide_eq_false_iff_not]
        omega
      unfold einitLoop
      rw [hcond]
      simp only [Bool.false_eq_true, if_false]
      exact ih (done + 1) (by omega)

lemma einitLoop_some (f : Nat) :
    ∀ rem done, done ≤ f → f < done + rem → einitLoop f done rem = some (f + 1) := by
  intro rem
  induction rem with
  | zero => intro done h1 h2; omega
  | succ rem ih =>
      intro done h1 h2
      by_cases hc : f < done + 1
      · have hf : f = done := by omega
        have hcond : einitAttemptSucceeds f (done + 1) = true := by
          unfold einitAttemptSucceeds
          simp only [decide_eq_true_eq]
          omega
        unfold einitLoop
        rw [hcond]
        simp [hf]
      · have hcond : einitAttemptSucceeds f (done + 1) = false := by
          unfold einitAttemptSucceeds
          simp only [decide_eq_false_iff_not]
          omega
        unfold einitLoop
        rw [hcond]
        simp only [Bool.false_eq_true, if_false]
        exact ih (done + 1) (by omega) (by omega)

/-- C6: the init retry policy uses exactly the fixed constants
SGX_EINIT_SPIN_COUNT = 20, SGX_EINIT_SLEEP_COUNT = 50 and
SGX_EINIT_SLEEP_TIME = 20: a run of consecutive contention failures shorter
than the combined spin+sleep budget lets init succeed within the budget,
and once the combined budget is exhausted init surfaces a final failure
after exactly the budgeted number of attempts and makes no further ones. -/
theorem sgx_einit_retry_policy_C6 (f : Nat) :
    SGX_EINIT_SPIN_COUNT = 20 ∧ SGX_EINIT_SLEEP_COUNT = 50 ∧
    SGX_EINIT_SLEEP_TIME = 20 ∧
    (f < SGX_EINIT_SPIN_COUNT + SGX_EINIT_SLEEP_COUNT →
      sgx_einit f = EinitResult.success (f + 1) ∧
      f + 1 ≤ SGX_EINIT_SPIN_COUNT + SGX_EINIT_SLEEP_COUNT) ∧
    (SGX_EINIT_SPIN_COUNT + SGX_EINIT_SLEEP_COUNT ≤ f →
      sgx_einit f =
        EinitResult.retriesExhausted (SGX_EINIT_SPIN_COUNT + SGX_EINIT_SLEEP_COUNT)) := by
  refine ⟨rfl, rfl, rfl, ?_, ?_⟩
  · intro h
    simp only [SGX_EINIT_SPIN_COUNT, SGX_EINIT_SLEEP_COUNT] at h ⊢
    refine ⟨?_, by omega⟩
    unfold sgx_einit
    simp only [SGX_EINIT_SPIN_COUNT, SGX_EINIT_SLEEP_COUNT]
    by_cases h20 : f < 20
    · rw [einitLoop_some f 20 0 (by omega) (by omega)]
    · rw [einitLoop_none f 20 0 (by omega),
        einitLoop_some f 50 20 (by omega) (by omega)]
  · intro h
    simp only [SGX_EINIT_SPIN_COUNT, SGX_EINIT_SLEEP_COUNT] at h ⊢
    unfold sgx_einit
    simp only [SGX_EINIT_SPIN_COUNT, SGX_EINIT_SLEEP_COUNT]
    rw [einitLoop_none f 20 0 (by omega), einitLoop_none f 50 20 (by omega)]

theorem sgx_einit_retry_policy_C6_witness :
    sgx_einit 5 = EinitResult.success (5 + 1) ∧
    sgx_einit 100 =
      EinitResult.retriesExhausted (SGX_EINIT_SPIN_COUNT + SGX_EINIT_SLEEP_COUNT) :=
  ⟨((sgx_einit_retry_policy_C6 5).2.2.2.1 (by norm_num [SGX_EINIT_SPIN_COUNT,
      SGX_EINIT_SLEEP_COUNT])).1,
   (sgx_einit_retry_policy_C6 100).2.2.2.2 (by norm_num [SGX_EINIT_SPIN_COUNT,
      SGX_EINIT_SLEEP_COUNT])⟩
